import Mathlib

/-!
Verification of the ReaderTask effect module (src/src/ReaderTask.ts).

A ReaderTask is a function from a read-only environment to an asynchronous
Task. The module itself is pure composition over the Task and Reader
collaborators, which live outside the provided sources; following the spec,
a Task is modelled denotationally by the value it eventually resolves to
(the spec stipulates Tasks are total and all laws are compared on resolved
results against a fixed environment).
-/

namespace FpTs

universe u v

/-- Modelled from the spec: the asynchronous collaborator effect (Task, from
Task.ts, not under src/). The spec says a Task "always eventually resolves to
a value" and every law is "verified by running effects against a fixed
environment and comparing resolved results", so a Task is modelled by the
value it resolves to. Scheduling and completion order are not observable in
resolved results. -/
structure Task (α : Type u) : Type u where
  run : α

namespace Task

/-- Modelled from the spec: T.of wraps a value into an immediately resolved
asynchronous computation. -/
def of {α : Type u} (a : α) : Task α := ⟨a⟩

/-- Modelled from the spec: T.map transforms the resolved result with a pure
function. -/
def map {α : Type u} {β : Type v} (f : α → β) (t : Task α) : Task β :=
  ⟨f t.run⟩

/-- Modelled from the spec: T.ap is the collaborator parallel-combination
primitive; both computations settle and the function result is applied to
the argument result. -/
def ap {α : Type u} {β : Type v} (fa : Task α) (fab : Task (α → β)) : Task β :=
  ⟨fab.run fa.run⟩

/-- Modelled from the spec: T.chain runs the first computation to completion,
then runs the computation produced from its result. -/
def chain {α : Type u} {β : Type v} (f : α → Task β) (t : Task α) : Task β :=
  f t.run

/-- Modelled from the spec: T.sequenceArray combines an ordered collection of
Tasks into one Task resolving to the ordered collection of their results, in
input order. -/
def sequenceArray {α : Type u} (l : List (Task α)) : Task (List α) :=
  ⟨l.map Task.run⟩

end Task

/-- A semigroup capability record, as in Semigroup.ts: just the binary
concat operation (laws are a side condition, not part of the record). -/
structure Semigroup (α : Type u) : Type u where
  concat : α → α → α

/-- A monoid capability record, as in Monoid.ts: a semigroup with an
identity element. -/
structure Monoid (α : Type u) extends Semigroup α : Type u where
  empty : α

/-- Modelled from the spec: T.getSemigroup combines two Tasks by running
both and combining their resolved results pointwise. -/
def Task.getSemigroup {α : Type u} (S : Semigroup α) : Semigroup (Task α) :=
  ⟨fun x y => ⟨S.concat x.run y.run⟩⟩

namespace Reader

/-- Modelled from the spec: R.of (Reader.ts, not under src/) ignores the
environment and returns the value. -/
def of {ρ : Type u} {α : Type v} (a : α) : ρ → α := fun _ => a

/-- Modelled from the spec: R.map post-composes a pure function. -/
def map {ρ α β : Type u} (f : α → β) (fa : ρ → α) : ρ → β := fun r => f (fa r)

/-- Modelled from the spec: R.getSemigroup runs both readers against the same
environment and combines the results pointwise. -/
def getSemigroup {ρ α : Type u} (S : Semigroup α) : Semigroup (ρ → α) :=
  ⟨fun x y r => S.concat (x r) (y r)⟩

/-- Modelled from the spec: R.traverseArrayWithIndex applies f(index, element)
to each element of the input array, producing one reader per element, and
reads them all against the same environment, in input order. -/
def traverseArrayWithIndex {ρ α β : Type u} (f : Nat → α → ρ → β)
    (arr : List α) : ρ → List β :=
  fun r => arr.mapIdx fun i a => f i a r

end Reader

/-- The effect type from ReaderTask.ts: a function from an environment to a
Task of a result. -/
def ReaderTask (ρ : Type u) (α : Type v) : Type (max u v) := ρ → Task α

namespace ReaderTask

/-- fromTask, line 39: environment-independent lift, R.of on the Task. -/
def fromTask {ρ : Type u} {α : Type v} (ma : Task α) : ReaderTask ρ α :=
  Reader.of ma

/-- fromReader, line 47: flow(ma, T.of). -/
def fromReader {ρ : Type u} {α : Type v} (ma : ρ → α) : ReaderTask ρ α :=
  fun r => Task.of (ma r)

/-- ask, line 61: () => T.of, so ask applied to r is T.of r. -/
def ask {ρ : Type u} : ReaderTask ρ ρ := fun r => Task.of r

/-- asks, line 67: flow(T.of, T.map(f)). -/
def asks {ρ : Type u} {α : Type v} (f : ρ → α) : ReaderTask ρ α :=
  fun r => Task.map f (Task.of r)

/-- map, lines 112-113: flow(fa, T.map(f)). -/
def map {ρ : Type u} {α β : Type v} (f : α → β) (fa : ReaderTask ρ α) :
    ReaderTask ρ β :=
  fun r => Task.map f (fa r)

/-- apW, lines 121-124: (fa) => (fab) => (r) => pipe(fab(r), T.ap(fa(r))).
The shallow embedding identifies the merged environment R1 & R2 with a
single environment type satisfying both. -/
def apW {ρ : Type u} {α β : Type v} (fa : ReaderTask ρ α)
    (fab : ReaderTask ρ (α → β)) : ReaderTask ρ β :=
  fun r => Task.ap (fa r) (fab r)

/-- ap, line 132: ap = apW. -/
def ap {ρ : Type u} {α β : Type v} (fa : ReaderTask ρ α)
    (fab : ReaderTask ρ (α → β)) : ReaderTask ρ β := apW fa fab

/-- of, line 140: (a) => () => T.of(a). -/
def of {ρ : Type u} {α : Type v} (a : α) : ReaderTask ρ α :=
  fun _ => Task.of a

/-- chainW, lines 148-154: (f) => (fa) => (r) => pipe(fa(r), T.chain((a) => f(a)(r))). -/
def chainW {ρ : Type u} {α β : Type v} (f : α → ReaderTask ρ β)
    (fa : ReaderTask ρ α) : ReaderTask ρ β :=
  fun r => Task.chain (fun a => f a r) (fa r)

/-- chain, line 162: chain = chainW. -/
def chain {ρ : Type u} {α β : Type v} (f : α → ReaderTask ρ β)
    (fa : ReaderTask ρ α) : ReaderTask ρ β := chainW f fa

/-- getSemigroup, lines 200-202: R.getSemigroup(T.getSemigroup(S)). -/
def getSemigroup {ρ α : Type u} (S : Semigroup α) :
    Semigroup (ReaderTask ρ α) :=
  Reader.getSemigroup (Task.getSemigroup S)

/-- getMonoid, lines 208-213: concat from getSemigroup, empty = of(M.empty). -/
def getMonoid {ρ α : Type u} (M : Monoid α) : Monoid (ReaderTask ρ α) :=
  { toSemigroup := getSemigroup M.toSemigroup
    empty := of M.empty }

/-- The bundled applicative operation table (Applicative2 shape): map, ap, of. -/
structure ApplicativeI (ρ : Type u) : Type (u + 1) where
  map : ∀ {α β : Type u}, (α → β) → ReaderTask ρ α → ReaderTask ρ β
  ap : ∀ {α β : Type u}, ReaderTask ρ α → ReaderTask ρ (α → β) → ReaderTask ρ β
  of : ∀ {α : Type u}, α → ReaderTask ρ α

/-- ApplicativePar, lines 228-233: ap is the parallel apW. -/
def ApplicativePar (ρ : Type u) : ApplicativeI ρ :=
  { map := map, ap := apW, of := of }

/-- ApplicativeSeq, lines 263-268: ap := (fa) => chain((f) => pipe(fa, map(f))). -/
def ApplicativeSeq (ρ : Type u) : ApplicativeI ρ :=
  { map := map
    ap := fun fa fab => chain (fun f => map f fa) fab
    of := of }

/-- Modelled from the spec: the accumulated record of the do-notation struct
builder (a structural TypeScript object with string field names), modelled
as a finite partial map from field names to values of a common value type. -/
def Rec (V : Type u) : Type u := String → Option V

/-- Modelled from the spec: bind_ from function.ts (not under src/) "merges
the new field into the record under name": the result has all fields of the
record plus the new field, the new binding taking precedence. -/
def bind_ {V : Type u} (a : Rec V) (name : String) (b : V) : Rec V :=
  fun k => if k = name then some b else a k

/-- Modelled from the spec: the empty record seeding a do-notation chain. -/
def emptyRec {V : Type u} : Rec V := fun _ => none

/-- Do, line 310: of({}), the empty-record effect. -/
def Do {ρ V : Type u} : ReaderTask ρ (Rec V) := of emptyRec

/-- bindW, lines 321-330: chainW((a) => pipe(f(a), map((b) => bind_(a, name, b)))). -/
def bindW {ρ V : Type u} (name : String) (f : Rec V → ReaderTask ρ V)
    (fa : ReaderTask ρ (Rec V)) : ReaderTask ρ (Rec V) :=
  chainW (fun a => map (fun b => bind_ a name b) (f a)) fa

/-- traverseArrayWithIndex, lines 404-407:
flow(R.traverseArrayWithIndex(f), R.map(T.sequenceArray)). -/
def traverseArrayWithIndex {ρ α β : Type u}
    (f : Nat → α → ReaderTask ρ β) (arr : List α) : ReaderTask ρ (List β) :=
  Reader.map Task.sequenceArray (Reader.traverseArrayWithIndex f arr)

/-- traverseArray, lines 412-414: traverseArrayWithIndex((_, a) => f(a)). -/
def traverseArray {ρ α β : Type u} (f : α → ReaderTask ρ β)
    (arr : List α) : ReaderTask ρ (List β) :=
  traverseArrayWithIndex (fun _ a => f a) arr

/-- sequenceArray, lines 419-421: traverseArray(identity). -/
def sequenceArray {ρ α : Type u} (arr : List (ReaderTask ρ α)) :
    ReaderTask ρ (List α) :=
  traverseArray id arr

end ReaderTask

/-- A two-field environment used in the concrete ask scenario of the spec. -/
structure EnvN : Type where
  n : Nat

namespace ReaderTask

/-- Helper: mapIdx with an index-independent function is plain map. -/
theorem mapIdx_const {α β : Type u} (g : α → β) (l : List α) :
    (l.mapIdx fun _ a => g a) = l.map g := by
  induction l with
  | nil => rfl
  | cons a as ih => simp [List.mapIdx_cons, ih]

/-- C1: the sequential applicative instance defines ap in terms of chain:
for every effect-of-function fab, effect-of-argument fa, and environment r,
ApplicativeSeq.ap fa fab at r equals chain (fun f => map f fa) fab at r. -/
theorem seq_ap_is_chain_derived {ρ α β : Type} (fab : ReaderTask ρ (α → β))
    (fa : ReaderTask ρ α) (r : ρ) :
    (ApplicativeSeq ρ).ap fa fab r = chain (fun f => map f fa) fab r := rfl

/-- C2: chain and of satisfy the monad laws when effects are run against a
fixed environment and compared on resolved results: left identity, right
identity, and associativity. -/
theorem monad_laws {ρ α β γ : Type} (a : α) (f : α → ReaderTask ρ β)
    (g : β → ReaderTask ρ γ) (m : ReaderTask ρ α) (r : ρ) :
    chain f (of a) r = f a r ∧
    chain of m r = m r ∧
    chain g (chain f m) r = chain (fun x => chain g (f x)) m r :=
  ⟨rfl, rfl, rfl⟩

/-- C3: both applicative instances satisfy, with the shared of, the
applicative identity, homomorphism and interchange laws, compared on
resolved results for every environment. The function-effect-first notation
ap(u)(v) of the claim is the fp-ts curried ap with argument-effect v and
function-effect u. -/
theorem applicative_laws {ρ α β : Type} (fa : ReaderTask ρ α)
    (fab : ReaderTask ρ (α → β)) (f : α → β) (a : α) (r : ρ) :
    ((ApplicativePar ρ).ap fa ((ApplicativePar ρ).of id) r = fa r ∧
      (ApplicativePar ρ).ap ((ApplicativePar ρ).of a) ((ApplicativePar ρ).of f) r
        = (ApplicativePar ρ).of (f a) r ∧
      (ApplicativePar ρ).ap ((ApplicativePar ρ).of a) fab r
        = (ApplicativePar ρ).ap fab ((ApplicativePar ρ).of fun g => g a) r) ∧
    ((ApplicativeSeq ρ).ap fa ((ApplicativeSeq ρ).of id) r = fa r ∧
      (ApplicativeSeq ρ).ap ((ApplicativeSeq ρ).of a) ((ApplicativeSeq ρ).of f) r
        = (ApplicativeSeq ρ).of (f a) r ∧
      (ApplicativeSeq ρ).ap ((ApplicativeSeq ρ).of a) fab r
        = (ApplicativeSeq ρ).ap fab ((ApplicativeSeq ρ).of fun g => g a) r) :=
  ⟨⟨rfl, rfl, rfl⟩, ⟨rfl, rfl, rfl⟩⟩

/-- C4: map satisfies the functor laws: map id is the identity on resolved
results at every environment, and map distributes over composition. -/
theorem functor_laws {ρ α β γ : Type} (fa : ReaderTask ρ α) (f : α → β)
    (g : β → γ) (r : ρ) :
    map id fa r = fa r ∧ map (g ∘ f) fa r = map g (map f fa) r :=
  ⟨rfl, rfl⟩

/-- C5: traverseArray preserves input order: the resolved collection is the
input array mapped positionally through f, and sequenceArray of
[of 1, of 2, of 3] resolves to [1, 2, 3] at any environment. -/
theorem traverseArray_preserves_order {ρ α β : Type}
    (f : α → ReaderTask ρ β) (l : List α) (r : ρ) :
    (traverseArray f l r).run = l.map (fun a => (f a r).run) ∧
    (sequenceArray [of 1, of 2, of 3] r).run = [1, 2, 3] := by
  constructor
  · show ((l.mapIdx fun _ a => f a r).map Task.run) = l.map fun a => (f a r).run
    rw [mapIdx_const (fun a => f a r) l, List.map_map]
    rfl
  · rfl

/-- C6: do-notation is equivalent to the explicit chain-and-map composition:
for every accumulated-record effect fa, field name, field producer f (which
receives the accumulated record, so already-bound values are visible), and
environment, bindW name f fa equals
chainW (fun a => map (fun b => bind_ a name b) (f a)) fa. -/
theorem bindW_eq_explicit_composition {ρ V : Type} (name : String)
    (f : Rec V → ReaderTask ρ V) (fa : ReaderTask ρ (Rec V)) (r : ρ) :
    bindW name f fa r
      = chainW (fun a => map (fun b => bind_ a name b) (f a)) fa r := rfl

/-- C7: ask and asks read the environment: ask at r resolves to r, asks f at
r resolves to f r, and mapping (fun e => e.n * 2) over ask at the
environment with n = 21 resolves to 42. -/
theorem ask_asks_spec :
    (∀ (R : Type) (r : R), ((@ask R) r).run = r) ∧
    (∀ (R A : Type) (f : R → A) (r : R), (asks f r).run = f r) ∧
    (map (fun e : EnvN => e.n * 2) ask ⟨21⟩).run = 42 :=
  ⟨fun _ _ => rfl, fun _ _ _ _ => rfl, rfl⟩

/-- C8: fromTask is environment-independent: at any two environments the
resulting effect is the very same Task, and it resolves to the Task's own
result. -/
theorem fromTask_env_independent {R α : Type} (ma : Task α) (r1 r2 : R) :
    fromTask ma r1 = fromTask ma r2 ∧
    fromTask ma r1 = ma ∧
    (fromTask ma r1).run = ma.run :=
  ⟨rfl, rfl, rfl⟩

/-- C9: getSemigroup combines effects pointwise against the same
environment; getMonoid.empty is of M.empty and is a two-sided identity for
the derived concat whenever M.empty is one for M.concat. -/
theorem getSemigroup_getMonoid_spec {ρ α : Type} (S : Semigroup α)
    (M : Monoid α) (x y : ReaderTask ρ α) (r : ρ)
    (hl : ∀ a, M.concat M.empty a = a) (hr : ∀ a, M.concat a M.empty = a) :
    ((getSemigroup S).concat x y r).run = S.concat (x r).run (y r).run ∧
    (getMonoid M : Monoid (ReaderTask ρ α)).empty = of M.empty ∧
    (getMonoid M).concat (getMonoid M).empty x r = x r ∧
    (getMonoid M).concat x (getMonoid M).empty r = x r := by
  refine ⟨rfl, rfl, ?_, ?_⟩
  · show Task.mk (M.concat M.empty (x r).run) = x r
    rw [hl]
  · show Task.mk (M.concat (x r).run M.empty) = x r
    rw [hr]

/-- Witness for C9 at the additive monoid on Nat, the effects of 2 and of 3,
and the environment 5. -/
theorem getSemigroup_getMonoid_spec_witness :
    (((getSemigroup (⟨Nat.add⟩ : Semigroup Nat) :
          Semigroup (ReaderTask Nat Nat)).concat (of 2) (of 3)) 5).run
        = Nat.add ((of 2 : ReaderTask Nat Nat) 5).run
            ((of 3 : ReaderTask Nat Nat) 5).run ∧
    (getMonoid (⟨⟨Nat.add⟩, 0⟩ : Monoid Nat) :
        Monoid (ReaderTask Nat Nat)).empty = of 0 ∧
    (getMonoid (⟨⟨Nat.add⟩, 0⟩ : Monoid Nat)).concat
        (getMonoid (⟨⟨Nat.add⟩, 0⟩ : Monoid Nat)).empty (of 2) 5
      = (of 2 : ReaderTask Nat Nat) 5 ∧
    (getMonoid (⟨⟨Nat.add⟩, 0⟩ : Monoid Nat)).concat (of 2)
        (getMonoid (⟨⟨Nat.add⟩, 0⟩ : Monoid Nat)).empty 5
      = (of 2 : ReaderTask Nat Nat) 5 :=
  getSemigroup_getMonoid_spec ⟨Nat.add⟩ ⟨⟨Nat.add⟩, 0⟩ (of 2) (of 3) 5
    (fun a => Nat.zero_add a) (fun a => Nat.add_zero a)

/-- C10: the parallel and sequential applicative instances agree on resolved
values: at every environment, ApplicativePar.ap and ApplicativeSeq.ap
resolve to the same result. -/
theorem par_seq_ap_agree {ρ α β : Type} (fab : ReaderTask ρ (α → β))
    (fa : ReaderTask ρ α) (r : ρ) :
    ((ApplicativePar ρ).ap fa fab r).run
      = ((ApplicativeSeq ρ).ap fa fab r).run := rfl

end ReaderTask

end FpTs
